import Mathlib

/-!
Formal model of the xingyun particle-field engine.

The development shallowly embeds the four source modules:

* `services/imageProcessing.ts` — the image-to-particle sampler
  (`processImage`, `rgbToHsl`, `noise`), modelled over `ℚ`.  JavaScript
  `Math.sin`/`Math.sqrt` (used only by the `Perlin` and `Radial` depth
  modes) are abstracted as a `MathImpl` parameter; all other arithmetic is
  exact rational arithmetic.  The pre-allocated `Float32Array`s plus the
  final `slice(0, particleIndex * k)` trim are modelled as lists that grow
  by appending, which yields the same final contents.
* `components/GestureHandler.tsx` — the per-frame gesture classifier
  inside `predictWebcam`, modelled over `ℝ` with `Real.sqrt` for
  `Math.sqrt`.
* `components/NebulaScene.tsx` — the field-state-machine step inside
  `animate` (modelled over `ℚ`) and the vertex-shader per-particle
  transform (modelled over `ℝ`; GLSL `sin`/`cos`/`sqrt` become
  `Real.sin`/`Real.cos`/`Real.sqrt`).  The shader's `main` is split into
  the four successive guarded blocks of the source (ambient drift,
  explosion, black hole, hand repulsion) composed in order; the
  model-view / projection stage, which depends only on the camera
  matrices, is outside the transform contract and is not modelled.
-/

open Classical

/-! ## Image-to-Particle Sampler (services/imageProcessing.ts) -/

/-- Abstraction of the JavaScript `Math` routines used by the sampler
(`Math.sin` in `noise`, `Math.sqrt` in the `Radial` depth mode). -/
structure MathImpl where
  sin : ℚ → ℚ
  sqrt : ℚ → ℚ

/-- `DepthMode` enum from `types.ts`. -/
inductive DepthMode where
  | Brightness
  | InverseBrightness
  | Hue
  | Saturation
  | Perlin
  | Radial
  | Layered
deriving DecidableEq

/-- `ParticleShape` enum from `types.ts`. -/
inductive ParticleShape where
  | Circle
  | Square
  | Star
  | Snowflake
deriving DecidableEq

/-- The `interactionType` union `'repulse' | 'attract'` from `types.ts`. -/
inductive InteractionKind where
  | repulse
  | attract
deriving DecidableEq

/-- `AppSettings` from `types.ts`.  `maxParticles` is a natural number;
the source guards `settings.maxParticles > 0`, so every non-positive
setting behaves like `0` here. -/
structure AppSettings where
  density : ℚ
  threshold : ℚ
  maxParticles : ℕ
  baseSize : ℚ
  depthMode : DepthMode
  depthRange : ℚ
  depthInvert : Bool
  noiseStrength : ℚ
  bloomStrength : ℚ
  particleShape : ParticleShape
  colorSaturation : ℚ
  interactionRadius : ℚ
  interactionStrength : ℚ
  interactionType : InteractionKind
  damping : ℚ
  returnSpeed : ℚ
  autoRotate : Bool
  autoRotateSpeed : ℚ

/-- The decoded canvas pixel buffer read by `processImage`
(`ctx.getImageData(0, 0, width, height).data`): a flat RGBA array
accessed at index `(y * width + x) * 4 + channel`. -/
structure ImageData where
  width : ℕ
  height : ℕ
  data : ℕ → ℚ

/-- `ProcessedData` from `imageProcessing.ts`, with the typed arrays as
lists. -/
structure ProcessedData where
  positions : List ℚ
  colors : List ℚ
  sizes : List ℚ
  count : ℕ

/-- The `noise` helper of `imageProcessing.ts`:
`sin(x * 12.9898 + y * 78.233) * 43758.5453123`, fractional part. -/
def noise (M : MathImpl) (x y : ℚ) : ℚ :=
  let n := M.sin (x * 12.9898 + y * 78.233) * 43758.5453123
  n - ⌊n⌋

/-- The `rgbToHsl` helper of `imageProcessing.ts`.  Returns `(h, s, l)`.
The JavaScript `switch (max)` matches `case r` first on ties, which the
`if` chain reproduces. -/
def rgbToHsl (r0 g0 b0 : ℚ) : ℚ × ℚ × ℚ :=
  let r := r0 / 255
  let g := g0 / 255
  let b := b0 / 255
  let maxC := max r (max g b)
  let minC := min r (min g b)
  let l := (maxC + minC) / 2
  if maxC = minC then (0, 0, l)
  else
    let d := maxC - minC
    let s := if l > 0.5 then d / (2 - maxC - minC) else d / (maxC + minC)
    let h :=
      if maxC = r then (g - b) / d + (if g < b then 6 else 0)
      else if maxC = g then (b - r) / d + 2
      else (r - g) / d + 4
    (h / 6, s, l)

/-- Sampling stride: `Math.max(1, Math.floor(settings.density))`. -/
def samplerStep (s : AppSettings) : ℕ :=
  (max 1 ⌊s.density⌋).toNat

/-- Buffer size estimate of `processImage`:
`Math.ceil((width * height) / (step * step))`, capped by `maxParticles`
when the latter is positive. -/
def samplerEstimate (img : ImageData) (s : AppSettings) : ℕ :=
  let step := samplerStep s
  let raw := (⌈((img.width * img.height : ℕ) : ℚ) / ((step * step : ℕ) : ℚ)⌉).toNat
  if 0 < s.maxParticles then min raw s.maxParticles else raw

/-- The coordinates visited by `for (let v = 0; v < len; v += step)`. -/
def strideCoords (len step : ℕ) : List ℕ :=
  (List.range len).filter (fun v => v % step == 0)

/-- The `(x, y)` pixel coordinates visited by the double loop of
`processImage`, in iteration order (outer `y`, inner `x`). -/
def visitedPixels (img : ImageData) (s : AppSettings) : List (ℕ × ℕ) :=
  let step := samplerStep s
  (strideCoords img.height step).flatMap
    (fun y => (strideCoords img.width step).map (fun x => (x, y)))

/-- The brightness/alpha filter of `processImage`: a visited pixel is
kept unless `brightness < settings.threshold || a < 50`. -/
def passingPixel (img : ImageData) (s : AppSettings) (xy : ℕ × ℕ) : Bool :=
  let i := (xy.2 * img.width + xy.1) * 4
  let r := img.data i
  let g := img.data (i + 1)
  let b := img.data (i + 2)
  let a := img.data (i + 3)
  let brightness := 0.299 * r + 0.587 * g + 0.114 * b
  if brightness < s.threshold ∨ a < 50 then false else true

/-- The depth (`z`) computed for a visited pixel by the `switch` on
`settings.depthMode` in `processImage`, including the final
`if (settings.depthInvert) z = -z`. -/
def pixelDepth (M : MathImpl) (img : ImageData) (s : AppSettings) (x y : ℕ) : ℚ :=
  let i := (y * img.width + x) * 4
  let r := img.data i
  let g := img.data (i + 1)
  let b := img.data (i + 2)
  let brightness := 0.299 * r + 0.587 * g + 0.114 * b
  let normalizedBrightness := brightness / 255
  let cx : ℚ := (img.width : ℚ) / 2
  let cy : ℚ := (img.height : ℚ) / 2
  let z :=
    match s.depthMode with
    | DepthMode.InverseBrightness => (1 - normalizedBrightness) * s.depthRange
    | DepthMode.Hue => (rgbToHsl r g b).1 * s.depthRange
    | DepthMode.Saturation => (rgbToHsl r g b).2.1 * s.depthRange
    | DepthMode.Perlin =>
        normalizedBrightness * (s.depthRange * 0.5) +
          noise M ((x : ℚ) * 0.01) ((y : ℚ) * 0.01) * s.noiseStrength
    | DepthMode.Radial =>
        let dx := (x : ℚ) - cx
        let dy := (y : ℚ) - cy
        let dist := M.sqrt (dx * dx + dy * dy)
        let maxDist := M.sqrt (cx * cx + cy * cy)
        (1 - dist / maxDist) * s.depthRange
    | DepthMode.Layered =>
        if brightness < 64 then 0
        else if brightness < 128 then s.depthRange * 0.33
        else if brightness < 192 then s.depthRange * 0.66
        else s.depthRange
    | DepthMode.Brightness => normalizedBrightness * s.depthRange
  if s.depthInvert then -z else z

/-- The mutable loop state of `processImage`: the three output arrays and
`particleIndex`. -/
structure SamplerState where
  positions : List ℚ
  colors : List ℚ
  sizes : List ℚ
  count : ℕ

/-- One iteration of the pixel loop of `processImage`: the
`particleIndex >= estimatedCount` break guard, the brightness/alpha
`continue`, and the particle emission. -/
def visitPixel (M : MathImpl) (img : ImageData) (s : AppSettings) (est : ℕ)
    (st : SamplerState) (xy : ℕ × ℕ) : SamplerState :=
  if est ≤ st.count then st
  else if passingPixel img s xy then
    let x := xy.1
    let y := xy.2
    let i := (y * img.width + x) * 4
    let r := img.data i
    let g := img.data (i + 1)
    let b := img.data (i + 2)
    let brightness := 0.299 * r + 0.587 * g + 0.114 * b
    let normalizedBrightness := brightness / 255
    let cx : ℚ := (img.width : ℚ) / 2
    let cy : ℚ := (img.height : ℚ) / 2
    let z := pixelDepth M img s x y
    let posX := (x : ℚ) - cx
    let posY := -((y : ℚ) - cy)
    { positions := st.positions ++ [posX, posY, z]
      colors := st.colors ++ [r / 255, g / 255, b / 255]
      sizes := st.sizes ++ [normalizedBrightness]
      count := st.count + 1 }
  else st

/-- `processImage` from `imageProcessing.ts`, acting on the decoded
canvas `ImageData`. -/
def processImage (M : MathImpl) (img : ImageData) (s : AppSettings) : ProcessedData :=
  let est := samplerEstimate img s
  let fin := (visitedPixels img s).foldl (visitPixel M img s est) ⟨[], [], [], 0⟩
  ⟨fin.positions, fin.colors, fin.sizes, fin.count⟩

/-- Number of visited pixels that pass the brightness/alpha filter. -/
def passingCount (img : ImageData) (s : AppSettings) : ℕ :=
  ((visitedPixels img s).filter (passingPixel img s)).length

/-! ## Field State Machine (components/NebulaScene.tsx, `animate`) -/

/-- The `HandData` record of `types.ts` as read by the render loop. -/
structure HandSignal where
  isActive : Bool
  x : ℚ
  y : ℚ
  z : ℚ
  isPinching : Bool
  isClosed : Bool

/-- The four animation scalars held in refs by `NebulaScene`:
`currentExplosionRef`, `targetExplosionRef`, `currentBlackHoleRef`,
`targetBlackHoleRef`. -/
structure FieldState where
  explosionCurrent : ℚ
  explosionTarget : ℚ
  blackHoleCurrent : ℚ
  blackHoleTarget : ℚ

/-- Initial field state: both currents and targets start at `0`. -/
def initFieldState : FieldState := ⟨0, 0, 0, 0⟩

/-- One frame of the target/lerp update in `animate`: pick the targets
and `lerpSpeed` from the hand signal, then
`current += (target - current) * lerpSpeed` for both scalars. -/
def fsmStep (hand : HandSignal) (st : FieldState) : FieldState :=
  let choice : ℚ × ℚ × ℚ :=
    if hand.isActive then
      if hand.isClosed then (1, 0, 0.05)
      else (0, 1, 0.03)
    else (0, 0, 0.02)
  let tB := choice.1
  let tE := choice.2.1
  let rate := choice.2.2
  { explosionCurrent := st.explosionCurrent + (tE - st.explosionCurrent) * rate
    explosionTarget := tE
    blackHoleCurrent := st.blackHoleCurrent + (tB - st.blackHoleCurrent) * rate
    blackHoleTarget := tB }

/-! ## Concrete instances used by witnesses -/

/-- Dummy interpretation of the abstracted `Math` routines. -/
def mathZero : MathImpl := ⟨fun _ => 0, fun _ => 0⟩

/-- The `DEFAULT_SETTINGS` object from `constants.tsx`. -/
def defaultSettings : AppSettings :=
  { density := 2
    threshold := 30
    maxParticles := 200000
    baseSize := 1.5
    depthMode := DepthMode.Brightness
    depthRange := 400
    depthInvert := false
    noiseStrength := 40
    bloomStrength := 1.5
    particleShape := ParticleShape.Circle
    colorSaturation := 1.2
    interactionRadius := 150
    interactionStrength := 80
    interactionType := InteractionKind.repulse
    damping := 0.9
    returnSpeed := 1.5
    autoRotate := true
    autoRotateSpeed := 0.3 }

/-- A 1×1 opaque white image. -/
def whiteImage1 : ImageData := ⟨1, 1, fun _ => 255⟩

/-- A 3×3 opaque white image. -/
def whiteImage3 : ImageData := ⟨3, 3, fun _ => 255⟩

/-- Settings for the C1 witness: particle cap 5. -/
def settingsCap5 : AppSettings := { defaultSettings with maxParticles := 5 }

/-- Settings for the C4 counterexample: stride 2, threshold 0, cap 1000. -/
def settingsStride2 : AppSettings :=
  { defaultSettings with threshold := 0, maxParticles := 1000 }

/-! ## Gesture Classifier (components/GestureHandler.tsx, `predictWebcam`) -/

/-- One MediaPipe hand landmark: normalized `x`/`y` in `[0,1]` plus an
unnormalized depth `z`. -/
structure Landmark where
  x : ℝ
  y : ℝ
  z : ℝ

/-- The `HandData` record written to `handDataRef.current` by
`predictWebcam`.  The pinch and fist flags are the comparison results
computed by the classifier. -/
structure HandData where
  isActive : Bool
  x : ℝ
  y : ℝ
  z : ℝ
  isPinching : Prop
  isClosed : Prop

/-- `tips = [8, 12, 16, 20]` from `predictWebcam`. -/
def fingerTips : List ℕ := [8, 12, 16, 20]

/-- `mcps = [5, 9, 13, 17]` from `predictWebcam`. -/
def fingerMcps : List ℕ := [5, 9, 13, 17]

/-- The `fingersClosedCount` loop of `predictWebcam`: for each of the
four non-thumb fingers, count it when
`tipDist < mcpDist * 1.1`, with both distances taken to the wrist
(landmark 0).  The `i`-th tip is paired with the `i`-th MCP, which the
zip makes explicit. -/
noncomputable def fingersClosedCount (l : ℕ → Landmark) : ℕ :=
  (fingerTips.zip fingerMcps).foldl (fun acc p =>
    let tip := l p.1
    let mcp := l p.2
    let tipDist := Real.sqrt ((tip.x - (l 0).x) ^ 2 + (tip.y - (l 0).y) ^ 2)
    let mcpDist := Real.sqrt ((mcp.x - (l 0).x) ^ 2 + (mcp.y - (l 0).y) ^ 2)
    if tipDist < mcpDist * 1.1 then acc + 1 else acc) 0

/-- The landmark-processing branch of `predictWebcam` for a detected
hand: pinch detection from landmarks 8 and 4, fist detection from the
curled-finger count, and the mirrored/inverted palm position from
landmark 9. -/
noncomputable def classify (l : ℕ → Landmark) : HandData :=
  let indexTip := l 8
  let thumbTip := l 4
  let dx := indexTip.x - thumbTip.x
  let dy := indexTip.y - thumbTip.y
  let pinchDist := Real.sqrt (dx * dx + dy * dy)
  let isPinching := pinchDist < 0.05
  let isClosed := 3 ≤ fingersClosedCount l
  let palmX := (l 9).x
  let palmY := (l 9).y
  let ndcX := -(palmX * 2 - 1)
  let ndcY := -(palmY * 2 - 1)
  { isActive := true
    x := ndcX
    y := ndcY
    z := (l 9).z
    isPinching := isPinching
    isClosed := isClosed }

/-- One processed frame of `predictWebcam`: with a detected hand the
signal is rebuilt by the classifier, otherwise only the `isActive` flag
is downgraded (`{ ...handDataRef.current, isActive: false }`). -/
noncomputable def predictWebcamStep (res : Option (ℕ → Landmark))
    (prev : HandData) : HandData :=
  match res with
  | some l => classify l
  | none => { prev with isActive := false }

/-- Euclidean distance of two landmarks in the normalized `(x, y)`
plane — the distance the classifier works with. -/
noncomputable def landmarkPlaneDist (a b : Landmark) : ℝ :=
  Real.sqrt ((a.x - b.x) ^ 2 + (a.y - b.y) ^ 2)

/-- A finger is curled when its tip is closer to the wrist than
`1.1 ×` its MCP distance (spec formulation of the per-finger test). -/
def curledFinger (l : ℕ → Landmark) (tip mcp : ℕ) : Prop :=
  landmarkPlaneDist (l tip) (l 0) < landmarkPlaneDist (l mcp) (l 0) * 1.1

/-- Indicator of `curledFinger`, for counting curled fingers. -/
noncomputable def curledIndicator (l : ℕ → Landmark) (tip mcp : ℕ) : ℕ :=
  if curledFinger l tip mcp then 1 else 0

/-! ## Concrete landmark frames for witnesses -/

/-- Landmarks with index fingertip `0.03` away from the thumb tip. -/
noncomputable def lmPinch : ℕ → Landmark := fun i =>
  if i = 8 then ⟨0.53, 0.5, 0⟩ else ⟨0.5, 0.5, 0⟩

/-- Landmarks with index fingertip `0.10` away from the thumb tip. -/
noncomputable def lmApart : ℕ → Landmark := fun i =>
  if i = 8 then ⟨0.6, 0.5, 0⟩ else ⟨0.5, 0.5, 0⟩

/-- Landmarks with all four non-thumb fingers curled: every tip is at
wrist distance `0.1`, every MCP at wrist distance `0.2`. -/
noncomputable def lmFist : ℕ → Landmark := fun i =>
  if i = 5 ∨ i = 9 ∨ i = 13 ∨ i = 17 then ⟨0.2, 0, 0⟩
  else if i = 8 ∨ i = 12 then ⟨0.1, 0, 0⟩
  else if i = 16 ∨ i = 20 then ⟨0.1, 0, 0⟩
  else ⟨0, 0, 0⟩

/-- Landmarks with only the index and middle fingers curled: ring and
pinky tips sit at wrist distance `0.3 > 1.1 · 0.2`. -/
noncomputable def lmTwoCurled : ℕ → Landmark := fun i =>
  if i = 5 ∨ i = 9 ∨ i = 13 ∨ i = 17 then ⟨0.2, 0, 0⟩
  else if i = 8 ∨ i = 12 then ⟨0.1, 0, 0⟩
  else if i = 16 ∨ i = 20 then ⟨0.3, 0, 0⟩
  else ⟨0, 0, 0⟩

/-- Two landmark frames agreeing on all `x`/`y` but with different `z`
everywhere. -/
noncomputable def lmFlat : ℕ → Landmark := fun _ => ⟨0.5, 0.5, 0⟩

/-- Same `x`/`y` as `lmFlat`, different depth. -/
noncomputable def lmDeep : ℕ → Landmark := fun _ => ⟨0.5, 0.5, 1⟩

/-! ## Vertex shader (components/NebulaScene.tsx, `vertexShader`)

GLSL vectors and the built-ins used by the shader, over `ℝ`. -/

/-- GLSL `vec3`. -/
structure Vec3 where
  x : ℝ
  y : ℝ
  z : ℝ

/-- GLSL `vec4`. -/
structure Vec4 where
  x : ℝ
  y : ℝ
  z : ℝ
  w : ℝ

instance : Add Vec3 := ⟨fun a b => ⟨a.x + b.x, a.y + b.y, a.z + b.z⟩⟩

instance : Sub Vec3 := ⟨fun a b => ⟨a.x - b.x, a.y - b.y, a.z - b.z⟩⟩

instance : SMul ℝ Vec3 := ⟨fun s v => ⟨s * v.x, s * v.y, s * v.z⟩⟩

instance : Add Vec4 := ⟨fun a b => ⟨a.x + b.x, a.y + b.y, a.z + b.z, a.w + b.w⟩⟩

instance : Sub Vec4 := ⟨fun a b => ⟨a.x - b.x, a.y - b.y, a.z - b.z, a.w - b.w⟩⟩

instance : Mul Vec4 := ⟨fun a b => ⟨a.x * b.x, a.y * b.y, a.z * b.z, a.w * b.w⟩⟩

instance : Neg Vec4 := ⟨fun a => ⟨-a.x, -a.y, -a.z, -a.w⟩⟩

instance : SMul ℝ Vec4 := ⟨fun s v => ⟨s * v.x, s * v.y, s * v.z, s * v.w⟩⟩

/-- Scalar broadcast to `vec3` (GLSL `vec3 + float` etc.). -/
def v3s (s : ℝ) : Vec3 := ⟨s, s, s⟩

/-- Scalar broadcast to `vec4`. -/
def v4s (s : ℝ) : Vec4 := ⟨s, s, s, s⟩

/-- GLSL `dot` for `vec3`. -/
def dot3 (a b : Vec3) : ℝ := a.x * b.x + a.y * b.y + a.z * b.z

/-- GLSL `dot` for `vec4`. -/
def dot4 (a b : Vec4) : ℝ := a.x * b.x + a.y * b.y + a.z * b.z + a.w * b.w

/-- GLSL `floor` on scalars. -/
noncomputable def rfloor (a : ℝ) : ℝ := (⌊a⌋ : ℤ)

/-- GLSL `floor`, componentwise on `vec3`. -/
noncomputable def floor3 (v : Vec3) : Vec3 := ⟨rfloor v.x, rfloor v.y, rfloor v.z⟩

/-- GLSL `floor`, componentwise on `vec4`. -/
noncomputable def floor4 (v : Vec4) : Vec4 := ⟨rfloor v.x, rfloor v.y, rfloor v.z, rfloor v.w⟩

/-- GLSL `step(edge, x)`: `0` when `x < edge`, else `1`. -/
noncomputable def glslStep (edge x : ℝ) : ℝ := if x < edge then 0 else 1

/-- Componentwise `step` on `vec3`. -/
noncomputable def step3 (e v : Vec3) : Vec3 :=
  ⟨glslStep e.x v.x, glslStep e.y v.y, glslStep e.z v.z⟩

/-- Componentwise `step` on `vec4`. -/
noncomputable def step4 (e v : Vec4) : Vec4 :=
  ⟨glslStep e.x v.x, glslStep e.y v.y, glslStep e.z v.z, glslStep e.w v.w⟩

/-- Componentwise `min` on `vec3`. -/
noncomputable def min3 (a b : Vec3) : Vec3 := ⟨min a.x b.x, min a.y b.y, min a.z b.z⟩

/-- Componentwise `max` on `vec3`. -/
noncomputable def max3 (a b : Vec3) : Vec3 := ⟨max a.x b.x, max a.y b.y, max a.z b.z⟩

/-- Componentwise `max` on `vec4`. -/
noncomputable def max4 (a b : Vec4) : Vec4 :=
  ⟨max a.x b.x, max a.y b.y, max a.z b.z, max a.w b.w⟩

/-- Componentwise `abs` on `vec4`. -/
def abs4 (a : Vec4) : Vec4 := ⟨|a.x|, |a.y|, |a.z|, |a.w|⟩

/-- GLSL `length` of a `vec2` given by its components. -/
noncomputable def glLength2 (a b : ℝ) : ℝ := Real.sqrt (a * a + b * b)

/-- GLSL `length` of a `vec3`. -/
noncomputable def glLength3 (v : Vec3) : ℝ := Real.sqrt (dot3 v v)

/-- GLSL `normalize` of a `vec3` (`v / length(v)`). -/
noncomputable def normalize3 (v : Vec3) : Vec3 :=
  ⟨v.x / glLength3 v, v.y / glLength3 v, v.z / glLength3 v⟩

/-- GLSL `mix(x, y, a) = x·(1-a) + y·a`. -/
def glMix (x y a : ℝ) : ℝ := x * (1 - a) + y * a

/-- Componentwise `mix` on `vec3`. -/
def mixV (a b : Vec3) (t : ℝ) : Vec3 := ⟨glMix a.x b.x t, glMix a.y b.y t, glMix a.z b.z t⟩

/-- GLSL `smoothstep`. -/
noncomputable def glSmoothstep (e0 e1 x : ℝ) : ℝ :=
  let t := min (max ((x - e0) / (e1 - e0)) 0) 1
  t * t * (3 - 2 * t)

/-- GLSL `sign`. -/
noncomputable def glslSign (x : ℝ) : ℝ := if x > 0 then 1 else if x < 0 then -1 else 0

/-- The shader's `mod289` on `vec3`. -/
noncomputable def mod289v3 (x : Vec3) : Vec3 := x - (289 : ℝ) • floor3 ((1 / 289 : ℝ) • x)

/-- The shader's `mod289` on `vec4`. -/
noncomputable def mod289v4 (x : Vec4) : Vec4 := x - (289 : ℝ) • floor4 ((1 / 289 : ℝ) • x)

/-- The shader's `permute`: `mod289(((x*34.0)+1.0)*x)`. -/
noncomputable def permute (x : Vec4) : Vec4 := mod289v4 (((34 : ℝ) • x + v4s 1) * x)

/-- The shader's `taylorInvSqrt`. -/
def taylorInvSqrt (r : Vec4) : Vec4 :=
  v4s 1.79284291400159 - (0.85373472095314 : ℝ) • r

/-- The shader's simplex noise `snoise`, transcribed line by line. -/
noncomputable def snoise (v : Vec3) : ℝ :=
  let i0 := floor3 (v + v3s (dot3 v (v3s (1 / 3))))
  let x0 := v - i0 + v3s (dot3 i0 (v3s (1 / 6)))
  let g := step3 ⟨x0.y, x0.z, x0.x⟩ x0
  let l := v3s 1 - g
  let i1 := min3 g ⟨l.z, l.x, l.y⟩
  let i2 := max3 g ⟨l.z, l.x, l.y⟩
  let x1 := x0 - i1 + v3s (1 / 6)
  let x2 := x0 - i2 + v3s (1 / 3)
  let x3 := x0 - v3s (1 / 2)
  let im := mod289v3 i0
  let p := permute (permute (permute
      (v4s im.z + ⟨0, i1.z, i2.z, 1⟩) + v4s im.y + ⟨0, i1.y, i2.y, 1⟩)
      + v4s im.x + ⟨0, i1.x, i2.x, 1⟩)
  let n : ℝ := 0.142857142857
  let ns : Vec3 := n • (⟨2, 0.5, 1⟩ : Vec3) - ⟨0, 1, 0⟩
  let j := p - (49 : ℝ) • floor4 ((ns.z * ns.z) • p)
  let xf := floor4 (ns.z • j)
  let yf := floor4 (j - (7 : ℝ) • xf)
  let x := ns.x • xf + v4s ns.y
  let y := ns.x • yf + v4s ns.y
  let h := v4s 1 - abs4 x - abs4 y
  let b0 : Vec4 := ⟨x.x, x.y, y.x, y.y⟩
  let b1 : Vec4 := ⟨x.z, x.w, y.z, y.w⟩
  let s0 := (2 : ℝ) • floor4 b0 + v4s 1
  let s1 := (2 : ℝ) • floor4 b1 + v4s 1
  let sh := -(step4 h (v4s 0))
  let a0 := (⟨b0.x, b0.z, b0.y, b0.w⟩ : Vec4) +
      (⟨s0.x, s0.z, s0.y, s0.w⟩ : Vec4) * ⟨sh.x, sh.x, sh.y, sh.y⟩
  let a1 := (⟨b1.x, b1.z, b1.y, b1.w⟩ : Vec4) +
      (⟨s1.x, s1.z, s1.y, s1.w⟩ : Vec4) * ⟨sh.z, sh.z, sh.w, sh.w⟩
  let p0 : Vec3 := ⟨a0.x, a0.y, h.x⟩
  let p1 : Vec3 := ⟨a0.z, a0.w, h.y⟩
  let p2 : Vec3 := ⟨a1.x, a1.y, h.z⟩
  let p3 : Vec3 := ⟨a1.z, a1.w, h.w⟩
  let nrm := taylorInvSqrt ⟨dot3 p0 p0, dot3 p1 p1, dot3 p2 p2, dot3 p3 p3⟩
  let q0 := nrm.x • p0
  let q1 := nrm.y • p1
  let q2 := nrm.z • p2
  let q3 := nrm.w • p3
  let m := max4 (v4s 0.6 - ⟨dot3 x0 x0, dot3 x1 x1, dot3 x2 x2, dot3 x3 x3⟩) (v4s 0)
  let m2 := m * m
  42 * dot4 (m2 * m2) ⟨dot3 q0 x0, dot3 q1 x1, dot3 q2 x2, dot3 q3 x3⟩

/-- The shader's `rotateZ`.  GLSL `mat3` constructors are column-major,
so `rotateZ(a) * v = (cos a · x + sin a · y, -sin a · x + cos a · y, z)`. -/
noncomputable def rotateZ (angle : ℝ) (v : Vec3) : Vec3 :=
  ⟨Real.cos angle * v.x + Real.sin angle * v.y,
   -(Real.sin angle) * v.x + Real.cos angle * v.y,
   v.z⟩

/-- The shader uniforms. -/
structure Uniforms where
  uTime : ℝ
  uSize : ℝ
  uHandPos : Vec3
  uHandActive : ℝ
  uInteractionRadius : ℝ
  uInteractionStrength : ℝ
  uReturnSpeed : ℝ
  uExplosion : ℝ
  uBlackHole : ℝ

/-- The per-particle working state of the shader `main`: the position
being transformed, the accumulated `extraSize`, and `vColor`. -/
structure PState where
  pos : Vec3
  extraSize : ℝ
  vColor : Vec3

/-- Ambient floating block: when both blend factors are below `0.1`, add
`snoise(vec3(pos.xy * 0.005, uTime * 0.1)) * 20` to `pos.z`. -/
noncomputable def ambientStage (u : Uniforms) (st : PState) : PState :=
  if u.uBlackHole < 0.1 ∧ u.uExplosion < 0.1 then
    let drift := snoise ⟨st.pos.x * 0.005, st.pos.y * 0.005, u.uTime * 0.1⟩
    { st with pos := { st.pos with z := st.pos.z + drift * 20 } }
  else st

/-- Explosion block (`uExplosion > 0.001`): clustering noise, radial
expansion, turbulence, slow rotation and size boost. -/
noncomputable def explosionStage (u : Uniforms) (st : PState) : PState :=
  if u.uExplosion > 0.001 then
    let noiseVal := snoise ⟨st.pos.x * 0.015 + u.uTime * 0.1,
        st.pos.y * 0.015 + u.uTime * 0.1, st.pos.z * 0.015 + u.uTime * 0.1⟩
    let maxExpansion := 300 * u.uExplosion
    let speedVar := glSmoothstep (-0.5) 1 noiseVal
    let dir := normalize3 st.pos
    let pos1 := st.pos + (maxExpansion * (0.4 + 0.6 * speedVar)) • dir
    let turb : Vec3 :=
      ⟨snoise ⟨pos1.x * 0.01 + 0, pos1.y * 0.01 + u.uTime * 0.3, pos1.z * 0.01 + 0⟩,
       snoise ⟨pos1.x * 0.01 + 100, pos1.y * 0.01 + u.uTime * 0.3, pos1.z * 0.01 + 100⟩,
       snoise ⟨pos1.x * 0.01 + 200, pos1.y * 0.01 + 200, pos1.z * 0.01 + u.uTime * 0.3⟩⟩
    let pos2 := pos1 + (80 * u.uExplosion) • turb
    let pos3 := rotateZ (u.uExplosion * 0.4) pos2
    ⟨pos3, st.extraSize + u.uExplosion * 8, st.vColor⟩
  else st

/-- Accretion-disk part of the black-hole block: flatten `z`, vortex
spin and ring pull.  Returns the updated position together with the
planar radius `r` measured before the spin (also the radius the jet
test uses). -/
noncomputable def bhSpinPull (H t : ℝ) (p : Vec3) : Vec3 × ℝ :=
  let p1 : Vec3 := ⟨p.x, p.y, p.z * glMix 1 0.05 H⟩
  let r := glLength2 p1.x p1.y
  let spin := 400 / (r + 10) * t * 1 * H
  let p2 := rotateZ spin p1
  let targetR := 30 + r * 0.2
  let pull := H * 0.95
  let p3 :=
    if r > 1 then
      let newR := glMix r targetR pull
      let len := glLength2 p2.x p2.y
      (⟨p2.x / len * newR, p2.y / len * newR, p2.z⟩ : Vec3)
    else p2
  (p3, r)

/-- The stable jet-selection noise signal:
`snoise(vec3(position.xy * 0.8, 42.0))` on the original position. -/
noncomputable def jetSignalOf (position : Vec3) : ℝ :=
  snoise ⟨position.x * 0.8, position.y * 0.8, 42⟩

/-- The jet direction: `sign(position.z)`, replaced by `1` when zero. -/
noncomputable def jetSide (z : ℝ) : ℝ :=
  let s := glslSign z
  if s = 0 then 1 else s

/-- Black-hole / quasar block (`uBlackHole > 0.001`), including the
relativistic-jet reclassification and the disk glow. -/
noncomputable def blackHoleStage (u : Uniforms) (position : Vec3) (st : PState) : PState :=
  if u.uBlackHole > 0.001 then
    let pr := bhSpinPull u.uBlackHole u.uTime st.pos
    let pos := pr.1
    let r := pr.2
    let jetSignal := jetSignalOf position
    if jetSignal > 0.7 ∧ r < 120 then
      let jetIntensity := u.uBlackHole
      let jetLen := 500 * jetIntensity
      let side := jetSide position.z
      let pos1 : Vec3 := ⟨pos.x * 0.05, pos.y * 0.05, pos.z⟩
      let pos2 : Vec3 := ⟨pos1.x, pos1.y, side * (50 + jetLen * |jetSignal|)⟩
      let jetTwist := pos2.z * 0.05 - u.uTime * 5
      let pos3 : Vec3 := ⟨pos2.x + Real.sin jetTwist * 10,
          pos2.y + Real.cos jetTwist * 10, pos2.z⟩
      ⟨pos3, st.extraSize + 5 * jetIntensity, mixV st.vColor ⟨0.6, 0.8, 1⟩ jetIntensity⟩
    else
      let currentR := glLength2 pos.x pos.y
      if currentR < 60 then
        let heat := (1 - currentR / 60) * u.uBlackHole
        ⟨pos, st.extraSize + 3 * heat, mixV st.vColor ⟨1, 0.9, 0.6⟩ heat⟩
      else ⟨pos, st.extraSize, st.vColor⟩
  else st

/-- Hand-repulsion block (active hand, both blend factors below `0.1`). -/
noncomputable def handStage (u : Uniforms) (st : PState) : PState :=
  if u.uHandActive > 0.5 ∧ u.uBlackHole < 0.1 ∧ u.uExplosion < 0.1 then
    let toHand := st.pos - u.uHandPos
    let dist := glLength3 toHand
    if dist < u.uInteractionRadius then
      let dir := normalize3 toHand
      let force := 1 - dist / u.uInteractionRadius
      let force2 := force ^ 2 * u.uInteractionStrength
      { st with pos := st.pos + force2 • dir }
    else st
  else st

/-- The shader `main` up to `vDepth`: start from the attribute position
with `pos.z *= 1.5` and `extraSize = 1`, then the four guarded blocks in
source order.  The remaining lines only apply the camera matrices and
assemble `gl_PointSize`. -/
noncomputable def shaderMain (u : Uniforms) (position aColor : Vec3) : PState :=
  handStage u (blackHoleStage u position (explosionStage u (ambientStage u
    ⟨⟨position.x, position.y, position.z * 1.5⟩, 1, aColor⟩)))

/-- The planar radius `|p.xy|` of a particle. -/
noncomputable def planarRadius (p : Vec3) : ℝ := Real.sqrt (p.x ^ 2 + p.y ^ 2)

/-- The C3 property of the transformed particle: in the black-hole
state (original `xy` unperturbed, hand repulsion off), the particle is
reclassified as a jet particle exactly when the stable noise signal on
its original `xy` at depth offset `42` exceeds `0.7` and its planar
radius is below `120`; a jet particle gets `xy` compressed by `0.05`
(relative to the spun/pulled disk position) plus the depth-dependent
spiral twist, `z = side · (50 + 500·H·|signal|)` with `side` the sign of
the original `z` (positive at zero), size boost `+5·H` and a blend
toward the fixed blue `(0.6, 0.8, 1)`; otherwise the particle keeps the
disk position and only receives the gold disk glow. -/
def JetCharacterization (u : Uniforms) (position aColor : Vec3) : Prop :=
  let out := shaderMain u position aColor
  let sig := jetSignalOf position
  let q := (bhSpinPull u.uBlackHole u.uTime ⟨position.x, position.y, 0⟩).1
  let cr := glLength2 q.x q.y
  (sig > 0.7 ∧ planarRadius position < 120 →
      out.pos.z = jetSide position.z * (50 + 500 * u.uBlackHole * |sig|) ∧
      out.pos.x = q.x * 0.05 + Real.sin (out.pos.z * 0.05 - u.uTime * 5) * 10 ∧
      out.pos.y = q.y * 0.05 + Real.cos (out.pos.z * 0.05 - u.uTime * 5) * 10 ∧
      out.extraSize = 1 + 5 * u.uBlackHole ∧
      out.vColor = mixV aColor ⟨0.6, 0.8, 1⟩ u.uBlackHole) ∧
  (¬(sig > 0.7 ∧ planarRadius position < 120) →
      out.pos.x = q.x ∧ out.pos.y = q.y ∧
      out.extraSize =
        (if cr < 60 then 1 + 3 * ((1 - cr / 60) * u.uBlackHole) else 1) ∧
      out.vColor =
        (if cr < 60 then mixV aColor ⟨1, 0.9, 0.6⟩ ((1 - cr / 60) * u.uBlackHole)
         else aColor))

/-- Uniforms of a fully engaged black-hole state with inactive hand. -/
noncomputable def uniformsBH : Uniforms :=
  ⟨0, 6, ⟨0, 0, 0⟩, 0, 150, 80, 1.5, 0, 1⟩

/-! ## Sampler lemmas -/

theorem visitPixel_foldl_spec (M : MathImpl) (img : ImageData) (s : AppSettings)
    (est : ℕ) :
    ∀ (l : List (ℕ × ℕ)) (st : SamplerState),
      st.count ≤ est →
      st.positions.length = 3 * st.count →
      st.colors.length = 3 * st.count →
      st.sizes.length = st.count →
      (l.foldl (visitPixel M img s est) st).count =
          min (st.count + (l.filter (passingPixel img s)).length) est ∧
      (l.foldl (visitPixel M img s est) st).positions.length =
          3 * (l.foldl (visitPixel M img s est) st).count ∧
      (l.foldl (visitPixel M img s est) st).colors.length =
          3 * (l.foldl (visitPixel M img s est) st).count ∧
      (l.foldl (visitPixel M img s est) st).sizes.length =
          (l.foldl (visitPixel M img s est) st).count := by
  intro l
  induction l with
  | nil =>
      intro st hc hp hcol hsz
      simp only [List.foldl_nil, List.filter_nil, List.length_nil, Nat.add_zero]
      exact ⟨(Nat.min_eq_left hc).symm, hp, hcol, hsz⟩
  | cons a l ih =>
      intro st hc hp hcol hsz
      by_cases hfull : est ≤ st.count
      · have hceq : st.count = est := Nat.le_antisymm hc hfull
        have hstep : visitPixel M img s est st a = st := by
          simp [visitPixel, hfull]
        rw [List.foldl_cons, hstep]
        have ihr := ih st hc hp hcol hsz
        refine ⟨?_, ihr.2.1, ihr.2.2.1, ihr.2.2.2⟩
        rw [ihr.1, hceq]
        omega
      · have hlt : st.count < est := Nat.lt_of_not_le hfull
        by_cases hpass : passingPixel img s a = true
        · have hstep : (visitPixel M img s est st a).count = st.count + 1 ∧
              (visitPixel M img s est st a).positions.length =
                st.positions.length + 3 ∧
              (visitPixel M img s est st a).colors.length =
                st.colors.length + 3 ∧
              (visitPixel M img s est st a).sizes.length =
                st.sizes.length + 1 := by
            simp [visitPixel, hfull, hpass]
          rw [List.foldl_cons]
          have ihr := ih (visitPixel M img s est st a)
            (by omega) (by omega) (by omega) (by omega)
          refine ⟨?_, ihr.2.1, ihr.2.2.1, ihr.2.2.2⟩
          rw [ihr.1, hstep.1]
          simp only [List.filter_cons, hpass, if_true, List.length_cons]
          omega
        · have hstep : visitPixel M img s est st a = st := by
            simp [visitPixel, hfull, hpass]
          rw [List.foldl_cons, hstep]
          have ihr := ih st hc hp hcol hsz
          refine ⟨?_, ihr.2.1, ihr.2.2.1, ihr.2.2.2⟩
          rw [ihr.1]
          simp only [List.filter_cons]
          rw [if_neg (by simp [hpass])]

theorem processImage_count_eq (M : MathImpl) (img : ImageData) (s : AppSettings) :
    (processImage M img s).count =
      min (passingCount img s) (samplerEstimate img s) := by
  have h := visitPixel_foldl_spec M img s (samplerEstimate img s)
    (visitedPixels img s) ⟨[], [], [], 0⟩ (Nat.zero_le _) rfl rfl rfl
  simpa [processImage, passingCount] using h.1

theorem processImage_aligned (M : MathImpl) (img : ImageData) (s : AppSettings) :
    (processImage M img s).positions.length = 3 * (processImage M img s).count ∧
    (processImage M img s).colors.length = 3 * (processImage M img s).count ∧
    (processImage M img s).sizes.length = (processImage M img s).count := by
  have h := visitPixel_foldl_spec M img s (samplerEstimate img s)
    (visitedPixels img s) ⟨[], [], [], 0⟩ (Nat.zero_le _) rfl rfl rfl
  exact ⟨h.2.1, h.2.2.1, h.2.2.2⟩

/-! ## Field state machine lemmas -/

theorem fsmStep_closed (hand : HandSignal) (hA : hand.isActive = true)
    (hC : hand.isClosed = true) (st : FieldState) :
    fsmStep hand st =
      { explosionCurrent := st.explosionCurrent + (0 - st.explosionCurrent) * 0.05
        explosionTarget := 0
        blackHoleCurrent := st.blackHoleCurrent + (1 - st.blackHoleCurrent) * 0.05
        blackHoleTarget := 1 } := by
  simp [fsmStep, hA, hC]

theorem fsm_closed_iterate_formula (hand : HandSignal) (hA : hand.isActive = true)
    (hC : hand.isClosed = true) (n : ℕ) :
    ((fsmStep hand)^[n] initFieldState).explosionCurrent = 0 ∧
    ((fsmStep hand)^[n] initFieldState).blackHoleCurrent = 1 - (19 / 20 : ℚ) ^ n := by
  induction n with
  | zero => simp [initFieldState]
  | succ n ih =>
      rw [Function.iterate_succ_apply', fsmStep_closed hand hA hC]
      refine ⟨?_, ?_⟩
      · simp [ih.1]
      · simp only [ih.2]
        ring

/-! ## Claim theorems: sampler -/

/-- C1: for every decoded image and every valid sampling configuration
(positive particle cap), the sampler output has `count ≤ maxParticles`
and the three parallel arrays are index-aligned: `positions` has length
`3 * count`, `colors` has length `3 * count`, `sizes` has length
`count`. -/
theorem sampler_cap_and_alignment (M : MathImpl) (img : ImageData)
    (s : AppSettings) (hmax : 0 < s.maxParticles) :
    (processImage M img s).count ≤ s.maxParticles ∧
    (processImage M img s).positions.length = 3 * (processImage M img s).count ∧
    (processImage M img s).colors.length = 3 * (processImage M img s).count ∧
    (processImage M img s).sizes.length = (processImage M img s).count := by
  have hcount := processImage_count_eq M img s
  have hal := processImage_aligned M img s
  refine ⟨?_, hal.1, hal.2.1, hal.2.2⟩
  rw [hcount]
  have hest : samplerEstimate img s ≤ s.maxParticles := by
    unfold samplerEstimate
    rw [if_pos hmax]
    exact min_le_right _ _
  exact le_trans (min_le_right _ _) hest

/-- Witness for C1 at a concrete image and configuration. -/
theorem sampler_cap_and_alignment_witness :
    0 < settingsCap5.maxParticles ∧
    ((processImage mathZero whiteImage1 settingsCap5).count ≤ settingsCap5.maxParticles ∧
     (processImage mathZero whiteImage1 settingsCap5).positions.length =
       3 * (processImage mathZero whiteImage1 settingsCap5).count ∧
     (processImage mathZero whiteImage1 settingsCap5).colors.length =
       3 * (processImage mathZero whiteImage1 settingsCap5).count ∧
     (processImage mathZero whiteImage1 settingsCap5).sizes.length =
       (processImage mathZero whiteImage1 settingsCap5).count) :=
  ⟨by decide, sampler_cap_and_alignment mathZero whiteImage1 settingsCap5 (by decide)⟩

theorem settingsStride2_step : samplerStep settingsStride2 = 2 := by
  norm_num [samplerStep, settingsStride2, defaultSettings]
  decide

theorem whiteImage3_visited :
    visitedPixels whiteImage3 settingsStride2 = [(0, 0), (2, 0), (0, 2), (2, 2)] := by
  rw [visitedPixels, settingsStride2_step]
  decide

theorem whiteImage3_estimate : samplerEstimate whiteImage3 settingsStride2 = 3 := by
  rw [samplerEstimate, settingsStride2_step]
  norm_num [whiteImage3, settingsStride2, defaultSettings]
  have h : (⌈(9 : ℚ) / 4⌉) = 3 := by norm_num [Int.ceil_eq_iff]
  rw [h]
  decide

theorem whiteImage3_passing (xy : ℕ × ℕ) :
    passingPixel whiteImage3 settingsStride2 xy = true := by
  rw [passingPixel]
  rw [if_neg]
  simp only [whiteImage3, settingsStride2, defaultSettings]
  norm_num

theorem whiteImage3_passingCount : passingCount whiteImage3 settingsStride2 = 4 := by
  rw [passingCount, whiteImage3_visited]
  simp [whiteImage3_passing]

/-- C4 counterexample: on a 3×3 all-white image with stride 2,
threshold 0 and cap 1000, four visited pixels pass the filter and the
cap is far away, yet only three particles are emitted — the count is
capped by the buffer estimate `⌈9 / 4⌉ = 3`, not by
`min(passing, maxParticles) = 4`. -/
theorem sampler_count_min_counterexample :
    (processImage mathZero whiteImage3 settingsStride2).count = 3 ∧
    passingCount whiteImage3 settingsStride2 = 4 ∧
    settingsStride2.maxParticles = 1000 ∧
    (processImage mathZero whiteImage3 settingsStride2).count ≠
      min (passingCount whiteImage3 settingsStride2) settingsStride2.maxParticles := by
  have hc := processImage_count_eq mathZero whiteImage3 settingsStride2
  rw [whiteImage3_passingCount, whiteImage3_estimate] at hc
  refine ⟨by rw [hc]; decide, whiteImage3_passingCount, rfl, ?_⟩
  rw [hc, whiteImage3_passingCount]
  decide

/-- C4 amended: the sampler emits a particle for every passing visited
pixel until the pre-allocated buffer capacity
`min(⌈width·height / step²⌉, maxParticles)` (just `⌈width·height / step²⌉`
when `maxParticles` is not positive) is reached and only then silently
skips the rest; the returned count equals the minimum of the number of
passing visited pixels and that capacity.  The capacity can be smaller
than the number of visited pixels when the stride does not divide the
image dimensions, in which case passing pixels are skipped before
`maxParticles` is reached. -/
theorem sampler_count_min_estimate (M : MathImpl) (img : ImageData)
    (s : AppSettings) :
    (processImage M img s).count =
      min (passingCount img s) (samplerEstimate img s) :=
  processImage_count_eq M img s

/-- C7: with the depth-invert flag off, the depth computed under
`DepthMode.InverseBrightness` equals the range minus the depth computed
under `DepthMode.Brightness` for the same pixel and range. -/
theorem depth_inverse_brightness_complementary (M : MathImpl) (img : ImageData)
    (sInv sBr : AppSettings) (x y : ℕ)
    (hInvMode : sInv.depthMode = DepthMode.InverseBrightness)
    (hBrMode : sBr.depthMode = DepthMode.Brightness)
    (hInvFlag : sInv.depthInvert = false)
    (hBrFlag : sBr.depthInvert = false)
    (hRange : sInv.depthRange = sBr.depthRange) :
    pixelDepth M img sInv x y = sBr.depthRange - pixelDepth M img sBr x y := by
  simp only [pixelDepth, hInvMode, hBrMode, hInvFlag, hBrFlag, hRange,
    Bool.false_eq_true, if_false]
  ring

/-- Witness for C7 at a concrete pixel, image and settings pair. -/
theorem depth_inverse_brightness_complementary_witness :
    pixelDepth mathZero whiteImage1
        { defaultSettings with depthMode := DepthMode.InverseBrightness } 0 0 =
      defaultSettings.depthRange -
        pixelDepth mathZero whiteImage1 defaultSettings 0 0 :=
  depth_inverse_brightness_complementary mathZero whiteImage1
    { defaultSettings with depthMode := DepthMode.InverseBrightness }
    defaultSettings 0 0 rfl rfl rfl rfl rfl

/-! ## Claim theorems: field state machine -/

/-- C2: starting from both currents at `0`, under a sustained active
closed-fist signal every frame leaves `explosionCurrent` at `0` while
`blackHoleCurrent` strictly increases and stays below `1` (hence never
exceeds `1`). -/
theorem fsm_closed_fist_convergence (hand : HandSignal)
    (hA : hand.isActive = true) (hC : hand.isClosed = true) (n : ℕ) :
    ((fsmStep hand)^[n] initFieldState).explosionCurrent = 0 ∧
    ((fsmStep hand)^[n] initFieldState).blackHoleCurrent <
      ((fsmStep hand)^[n + 1] initFieldState).blackHoleCurrent ∧
    ((fsmStep hand)^[n] initFieldState).blackHoleCurrent < 1 ∧
    ((fsmStep hand)^[n] initFieldState).blackHoleCurrent ≤ 1 := by
  obtain ⟨hE, hB⟩ := fsm_closed_iterate_formula hand hA hC n
  obtain ⟨-, hB1⟩ := fsm_closed_iterate_formula hand hA hC (n + 1)
  have hpow : (0 : ℚ) < (19 / 20 : ℚ) ^ n := by positivity
  have hlt : ((19 : ℚ) / 20) ^ (n + 1) < (19 / 20 : ℚ) ^ n := by
    have h1 : ((19 : ℚ) / 20) < 1 := by norm_num
    calc ((19 : ℚ) / 20) ^ (n + 1) = (19 / 20 : ℚ) ^ n * (19 / 20) := by ring
    _ < (19 / 20 : ℚ) ^ n * 1 := by
        exact mul_lt_mul_of_pos_left h1 hpow
    _ = (19 / 20 : ℚ) ^ n := by ring
  refine ⟨hE, ?_, ?_, ?_⟩
  · rw [hB, hB1]
    linarith
  · rw [hB]
    linarith
  · rw [hB]
    linarith

/-- Witness for C2 at a concrete closed-fist signal and frame count. -/
theorem fsm_closed_fist_convergence_witness :
    ((fsmStep ⟨true, 0, 0, 0, false, true⟩)^[3] initFieldState).explosionCurrent = 0 ∧
    ((fsmStep ⟨true, 0, 0, 0, false, true⟩)^[3] initFieldState).blackHoleCurrent <
      ((fsmStep ⟨true, 0, 0, 0, false, true⟩)^[4] initFieldState).blackHoleCurrent ∧
    ((fsmStep ⟨true, 0, 0, 0, false, true⟩)^[3] initFieldState).blackHoleCurrent < 1 ∧
    ((fsmStep ⟨true, 0, 0, 0, false, true⟩)^[3] initFieldState).blackHoleCurrent ≤ 1 :=
  fsm_closed_fist_convergence ⟨true, 0, 0, 0, false, true⟩ rfl rfl 3

/-! ## Gesture classifier lemmas -/

theorem fingersClosedCount_eq_indicators (l : ℕ → Landmark) :
    fingersClosedCount l =
      curledIndicator l 8 5 + curledIndicator l 12 9 +
        curledIndicator l 16 13 + curledIndicator l 20 17 := by
  rw [fingersClosedCount,
    show fingerTips.zip fingerMcps = [(8, 5), (12, 9), (16, 13), (20, 17)] from rfl]
  simp only [List.foldl_cons, List.foldl_nil, curledIndicator, curledFinger,
    landmarkPlaneDist]
  split_ifs <;> omega

/-! ## Claim theorems: gesture classifier -/

/-- C5: for a detected hand, `isPinching` holds iff the Euclidean
distance in the normalized landmark plane between landmark 8 (index
fingertip) and landmark 4 (thumb tip) is below `0.05`; in particular it
holds at distance `0.03` and fails at distance `0.10`. -/
theorem classify_pinch_iff (l : ℕ → Landmark) :
    ((classify l).isPinching ↔ landmarkPlaneDist (l 8) (l 4) < 0.05) ∧
    (landmarkPlaneDist (l 8) (l 4) = 0.03 → (classify l).isPinching) ∧
    (landmarkPlaneDist (l 8) (l 4) = 0.10 → ¬(classify l).isPinching) := by
  have hd : Real.sqrt (((l 8).x - (l 4).x) * ((l 8).x - (l 4).x) +
      ((l 8).y - (l 4).y) * ((l 8).y - (l 4).y)) = landmarkPlaneDist (l 8) (l 4) := by
    rw [landmarkPlaneDist]
    congr 1
    ring
  have hiff : (classify l).isPinching ↔ landmarkPlaneDist (l 8) (l 4) < 0.05 := by
    simp only [classify]
    rw [hd]
  refine ⟨hiff, ?_, ?_⟩
  · intro h03
    rw [hiff, h03]
    norm_num
  · intro h10
    rw [hiff, h10]
    norm_num

/-- C6: for a detected hand, `isClosed` holds iff at least 3 of the 4
non-thumb fingers are curled, a finger being curled exactly when its
tip-to-wrist distance is below `1.1 ×` its MCP-to-wrist distance; all
four curled imply closed, and exactly two curled imply not closed. -/
theorem classify_closed_iff (l : ℕ → Landmark) :
    ((classify l).isClosed ↔
      3 ≤ curledIndicator l 8 5 + curledIndicator l 12 9 +
            curledIndicator l 16 13 + curledIndicator l 20 17) ∧
    ((curledFinger l 8 5 ∧ curledFinger l 12 9 ∧ curledFinger l 16 13 ∧
        curledFinger l 20 17) → (classify l).isClosed) ∧
    (curledIndicator l 8 5 + curledIndicator l 12 9 + curledIndicator l 16 13 +
        curledIndicator l 20 17 = 2 → ¬(classify l).isClosed) := by
  have hiff : (classify l).isClosed ↔
      3 ≤ curledIndicator l 8 5 + curledIndicator l 12 9 +
            curledIndicator l 16 13 + curledIndicator l 20 17 := by
    simp only [classify]
    rw [fingersClosedCount_eq_indicators]
  refine ⟨hiff, ?_, ?_⟩
  · intro hcurl
    rw [hiff]
    simp [curledIndicator, hcurl.1, hcurl.2.1, hcurl.2.2.1, hcurl.2.2.2]
  · intro h2
    rw [hiff, h2]
    omega

/-- C8: on a processed frame with no detected hand, the signal keeps
every field from the previous frame except the `isActive` flag, which
becomes `false`. -/
theorem predictWebcam_no_hand (prev : HandData) :
    (predictWebcamStep none prev).isActive = false ∧
    (predictWebcamStep none prev).x = prev.x ∧
    (predictWebcamStep none prev).y = prev.y ∧
    (predictWebcamStep none prev).z = prev.z ∧
    (predictWebcamStep none prev).isPinching = prev.isPinching ∧
    (predictWebcamStep none prev).isClosed = prev.isClosed :=
  ⟨rfl, rfl, rfl, rfl, rfl, rfl⟩

/-- C10: the classifier's pinch flag, fist flag and reported `x`/`y`
depend only on the landmarks' `x` and `y` coordinates; only the
reported depth is copied from landmark 9's `z`. -/
theorem classify_depends_only_on_xy (l1 l2 : ℕ → Landmark)
    (h : ∀ i, i < 21 → (l1 i).x = (l2 i).x ∧ (l1 i).y = (l2 i).y) :
    ((classify l1).isPinching ↔ (classify l2).isPinching) ∧
    ((classify l1).isClosed ↔ (classify l2).isClosed) ∧
    (classify l1).x = (classify l2).x ∧
    (classify l1).y = (classify l2).y ∧
    (classify l1).isActive = (classify l2).isActive ∧
    (classify l1).z = (l1 9).z := by
  have h0x := (h 0 (by norm_num)).1
  have h0y := (h 0 (by norm_num)).2
  have h4x := (h 4 (by norm_num)).1
  have h4y := (h 4 (by norm_num)).2
  have h5x := (h 5 (by norm_num)).1
  have h5y := (h 5 (by norm_num)).2
  have h8x := (h 8 (by norm_num)).1
  have h8y := (h 8 (by norm_num)).2
  have h9x := (h 9 (by norm_num)).1
  have h9y := (h 9 (by norm_num)).2
  have h12x := (h 12 (by norm_num)).1
  have h12y := (h 12 (by norm_num)).2
  have h13x := (h 13 (by norm_num)).1
  have h13y := (h 13 (by norm_num)).2
  have h16x := (h 16 (by norm_num)).1
  have h16y := (h 16 (by norm_num)).2
  have h17x := (h 17 (by norm_num)).1
  have h17y := (h 17 (by norm_num)).2
  have h20x := (h 20 (by norm_num)).1
  have h20y := (h 20 (by norm_num)).2
  have hcount : fingersClosedCount l1 = fingersClosedCount l2 := by
    rw [fingersClosedCount, fingersClosedCount,
      show fingerTips.zip fingerMcps = [(8, 5), (12, 9), (16, 13), (20, 17)] from rfl]
    simp only [List.foldl_cons, List.foldl_nil]
    rw [h0x, h0y, h5x, h5y, h8x, h8y, h9x, h9y, h12x, h12y, h13x, h13y,
      h16x, h16y, h17x, h17y, h20x, h20y]
  refine ⟨?_, ?_, ?_, ?_, rfl, rfl⟩
  · simp only [classify]
    rw [h8x, h8y, h4x, h4y]
  · simp only [classify]
    rw [hcount]
  · simp only [classify]
    rw [h9x]
  · simp only [classify]
    rw [h9y]

/-! ## Classifier witnesses -/

theorem sqrtAux_030 : Real.sqrt (((0.53 : ℝ) - 0.5) ^ 2 + ((0.5 : ℝ) - 0.5) ^ 2) = 0.03 := by
  rw [show (((0.53 : ℝ) - 0.5) ^ 2 + ((0.5 : ℝ) - 0.5) ^ 2) = 0.03 ^ 2 by norm_num,
    Real.sqrt_sq (by norm_num)]

theorem sqrtAux_100 : Real.sqrt (((0.6 : ℝ) - 0.5) ^ 2 + ((0.5 : ℝ) - 0.5) ^ 2) = 0.10 := by
  rw [show (((0.6 : ℝ) - 0.5) ^ 2 + ((0.5 : ℝ) - 0.5) ^ 2) = 0.10 ^ 2 by norm_num,
    Real.sqrt_sq (by norm_num)]

/-- Witness for C5: pinching at distance `0.03`, not pinching at
distance `0.10`. -/
theorem classify_pinch_iff_witness :
    (classify lmPinch).isPinching ∧ ¬(classify lmApart).isPinching := by
  constructor
  · apply (classify_pinch_iff lmPinch).2.1
    have h8 : lmPinch 8 = ⟨0.53, 0.5, 0⟩ := by norm_num [lmPinch]
    have h4 : lmPinch 4 = ⟨0.5, 0.5, 0⟩ := by norm_num [lmPinch]
    rw [h8, h4, landmarkPlaneDist]
    exact sqrtAux_030
  · apply (classify_pinch_iff lmApart).2.2
    have h8 : lmApart 8 = ⟨0.6, 0.5, 0⟩ := by norm_num [lmApart]
    have h4 : lmApart 4 = ⟨0.5, 0.5, 0⟩ := by norm_num [lmApart]
    rw [h8, h4, landmarkPlaneDist]
    exact sqrtAux_100

theorem landmarkPlaneDist_axis (a b : ℝ) (h : b ≤ a) :
    landmarkPlaneDist ⟨a, 0, 0⟩ ⟨b, 0, 0⟩ = a - b := by
  rw [landmarkPlaneDist]
  show Real.sqrt ((a - b) ^ 2 + ((0 : ℝ) - 0) ^ 2) = a - b
  rw [show ((a - b) ^ 2 + ((0 : ℝ) - 0) ^ 2) = (a - b) ^ 2 by ring]
  exact Real.sqrt_sq (by linarith)

theorem lmFist_curled_tip (t m : ℕ) (ht : lmFist t = ⟨0.1, 0, 0⟩)
    (hm : lmFist m = ⟨0.2, 0, 0⟩) : curledFinger lmFist t m := by
  rw [curledFinger, ht, hm, show lmFist 0 = ⟨0, 0, 0⟩ from by norm_num [lmFist],
    landmarkPlaneDist_axis 0.1 0 (by norm_num),
    landmarkPlaneDist_axis 0.2 0 (by norm_num)]
  norm_num

theorem lmTwoCurled_curled (t m : ℕ) (ht : lmTwoCurled t = ⟨0.1, 0, 0⟩)
    (hm : lmTwoCurled m = ⟨0.2, 0, 0⟩) : curledFinger lmTwoCurled t m := by
  rw [curledFinger, ht, hm, show lmTwoCurled 0 = ⟨0, 0, 0⟩ from by norm_num [lmTwoCurled],
    landmarkPlaneDist_axis 0.1 0 (by norm_num),
    landmarkPlaneDist_axis 0.2 0 (by norm_num)]
  norm_num

theorem lmTwoCurled_straight (t m : ℕ) (ht : lmTwoCurled t = ⟨0.3, 0, 0⟩)
    (hm : lmTwoCurled m = ⟨0.2, 0, 0⟩) : ¬curledFinger lmTwoCurled t m := by
  rw [curledFinger, ht, hm, show lmTwoCurled 0 = ⟨0, 0, 0⟩ from by norm_num [lmTwoCurled],
    landmarkPlaneDist_axis 0.3 0 (by norm_num),
    landmarkPlaneDist_axis 0.2 0 (by norm_num)]
  norm_num

/-- Witness for C6: a fully curled hand is closed; a hand with only two
curled fingers is not. -/
theorem classify_closed_iff_witness :
    (classify lmFist).isClosed ∧ ¬(classify lmTwoCurled).isClosed := by
  constructor
  · apply (classify_closed_iff lmFist).2.1
    refine ⟨?_, ?_, ?_, ?_⟩
    · exact lmFist_curled_tip 8 5 (by norm_num [lmFist]) (by norm_num [lmFist])
    · exact lmFist_curled_tip 12 9 (by norm_num [lmFist]) (by norm_num [lmFist])
    · exact lmFist_curled_tip 16 13 (by norm_num [lmFist]) (by norm_num [lmFist])
    · exact lmFist_curled_tip 20 17 (by norm_num [lmFist]) (by norm_num [lmFist])
  · apply (classify_closed_iff lmTwoCurled).2.2
    have i1 : curledIndicator lmTwoCurled 8 5 = 1 := by
      rw [curledIndicator,
        if_pos (lmTwoCurled_curled 8 5 (by norm_num [lmTwoCurled]) (by norm_num [lmTwoCurled]))]
    have i2 : curledIndicator lmTwoCurled 12 9 = 1 := by
      rw [curledIndicator,
        if_pos (lmTwoCurled_curled 12 9 (by norm_num [lmTwoCurled]) (by norm_num [lmTwoCurled]))]
    have i3 : curledIndicator lmTwoCurled 16 13 = 0 := by
      rw [curledIndicator,
        if_neg (lmTwoCurled_straight 16 13 (by norm_num [lmTwoCurled]) (by norm_num [lmTwoCurled]))]
    have i4 : curledIndicator lmTwoCurled 20 17 = 0 := by
      rw [curledIndicator,
        if_neg (lmTwoCurled_straight 20 17 (by norm_num [lmTwoCurled]) (by norm_num [lmTwoCurled]))]
    rw [i1, i2, i3, i4]

/-- Witness for C10: two frames equal in every `x`/`y` coordinate but
with different depths yield the same pinch flag, fist flag and
position. -/
theorem classify_depends_only_on_xy_witness :
    ((classify lmFlat).isPinching ↔ (classify lmDeep).isPinching) ∧
    ((classify lmFlat).isClosed ↔ (classify lmDeep).isClosed) ∧
    (classify lmFlat).x = (classify lmDeep).x ∧
    (classify lmFlat).y = (classify lmDeep).y ∧
    (classify lmFlat).isActive = (classify lmDeep).isActive ∧
    (classify lmFlat).z = (lmFlat 9).z :=
  classify_depends_only_on_xy lmFlat lmDeep (fun _ _ => ⟨rfl, rfl⟩)

/-! ## Shader lemmas -/

theorem glLength2_eq_planar (a b : ℝ) :
    glLength2 a b = Real.sqrt (a ^ 2 + b ^ 2) := by
  rw [glLength2]
  congr 1
  ring

theorem ambientStage_keeps (u : Uniforms) (st : PState) :
    (ambientStage u st).pos.x = st.pos.x ∧ (ambientStage u st).pos.y = st.pos.y ∧
    (ambientStage u st).extraSize = st.extraSize ∧
    (ambientStage u st).vColor = st.vColor := by
  simp only [ambientStage]
  split_ifs <;> simp

theorem explosionStage_zero (u : Uniforms) (st : PState) (hE : u.uExplosion = 0) :
    explosionStage u st = st := by
  simp only [explosionStage, hE]
  norm_num

theorem handStage_zero (u : Uniforms) (st : PState) (hA : u.uHandActive = 0) :
    handStage u st = st := by
  simp only [handStage, hA]
  norm_num

theorem bhSpinPull_r (H t : ℝ) (p : Vec3) :
    (bhSpinPull H t p).2 = glLength2 p.x p.y := by
  simp only [bhSpinPull]

theorem bhSpinPull_xy_indep (H t : ℝ) (p : Vec3) :
    (bhSpinPull H t p).1.x = (bhSpinPull H t ⟨p.x, p.y, 0⟩).1.x ∧
    (bhSpinPull H t p).1.y = (bhSpinPull H t ⟨p.x, p.y, 0⟩).1.y := by
  simp only [bhSpinPull, rotateZ]
  split_ifs <;> refine ⟨?_, ?_⟩ <;> trivial

theorem blackHoleStage_jet (u : Uniforms) (position : Vec3) (st : PState)
    (hH : u.uBlackHole > 0.001)
    (hJ : jetSignalOf position > 0.7 ∧
      (bhSpinPull u.uBlackHole u.uTime st.pos).2 < 120) :
    (blackHoleStage u position st).pos.z =
        jetSide position.z * (50 + 500 * u.uBlackHole * |jetSignalOf position|) ∧
    (blackHoleStage u position st).pos.x =
        (bhSpinPull u.uBlackHole u.uTime st.pos).1.x * 0.05 +
          Real.sin ((blackHoleStage u position st).pos.z * 0.05 - u.uTime * 5) * 10 ∧
    (blackHoleStage u position st).pos.y =
        (bhSpinPull u.uBlackHole u.uTime st.pos).1.y * 0.05 +
          Real.cos ((blackHoleStage u position st).pos.z * 0.05 - u.uTime * 5) * 10 ∧
    (blackHoleStage u position st).extraSize = st.extraSize + 5 * u.uBlackHole ∧
    (blackHoleStage u position st).vColor =
        mixV st.vColor ⟨0.6, 0.8, 1⟩ u.uBlackHole := by
  simp only [blackHoleStage, if_pos hH, if_pos hJ]
  refine ⟨?_, ?_, ?_, ?_, ?_⟩ <;> trivial

theorem blackHoleStage_disk (u : Uniforms) (position : Vec3) (st : PState)
    (hH : u.uBlackHole > 0.001)
    (hJ : ¬(jetSignalOf position > 0.7 ∧
      (bhSpinPull u.uBlackHole u.uTime st.pos).2 < 120)) :
    (blackHoleStage u position st).pos = (bhSpinPull u.uBlackHole u.uTime st.pos).1 ∧
    (blackHoleStage u position st).extraSize =
      (if glLength2 (bhSpinPull u.uBlackHole u.uTime st.pos).1.x
            (bhSpinPull u.uBlackHole u.uTime st.pos).1.y < 60
       then st.extraSize +
          3 * ((1 - glLength2 (bhSpinPull u.uBlackHole u.uTime st.pos).1.x
                (bhSpinPull u.uBlackHole u.uTime st.pos).1.y / 60) * u.uBlackHole)
       else st.extraSize) ∧
    (blackHoleStage u position st).vColor =
      (if glLength2 (bhSpinPull u.uBlackHole u.uTime st.pos).1.x
            (bhSpinPull u.uBlackHole u.uTime st.pos).1.y < 60
       then mixV st.vColor ⟨1, 0.9, 0.6⟩
          ((1 - glLength2 (bhSpinPull u.uBlackHole u.uTime st.pos).1.x
                (bhSpinPull u.uBlackHole u.uTime st.pos).1.y / 60) * u.uBlackHole)
       else st.vColor) := by
  simp only [blackHoleStage, if_pos hH, if_neg hJ]
  split_ifs <;> refine ⟨?_, ?_, ?_⟩ <;> trivial

/-! ## Claim theorems: shader -/

/-- C3: in the per-particle transform with `uBlackHole > 0.001`, pure
black-hole state (`uExplosion = 0`) and inactive hand, a particle is a
jet particle iff the stable noise signal on its original `xy` at depth
offset `42` exceeds `0.7` and its planar radius is below `120`, with
the jet outputs of the claim. -/
theorem shader_jet_classification (u : Uniforms) (position aColor : Vec3)
    (hE : u.uExplosion = 0) (hH : u.uBlackHole > 0.001) (hA : u.uHandActive = 0) :
    JetCharacterization u position aColor := by
  simp only [JetCharacterization]
  have hmain : shaderMain u position aColor =
      blackHoleStage u position
        (ambientStage u ⟨⟨position.x, position.y, position.z * 1.5⟩, 1, aColor⟩) := by
    simp only [shaderMain]
    rw [explosionStage_zero u _ hE, handStage_zero u _ hA]
  have hk := ambientStage_keeps u ⟨⟨position.x, position.y, position.z * 1.5⟩, 1, aColor⟩
  have hx1 : (ambientStage u ⟨⟨position.x, position.y, position.z * 1.5⟩, 1, aColor⟩).pos.x
      = position.x := hk.1
  have hy1 : (ambientStage u ⟨⟨position.x, position.y, position.z * 1.5⟩, 1, aColor⟩).pos.y
      = position.y := hk.2.1
  have hs1 : (ambientStage u ⟨⟨position.x, position.y, position.z * 1.5⟩, 1, aColor⟩).extraSize
      = 1 := hk.2.2.1
  have hc1 : (ambientStage u ⟨⟨position.x, position.y, position.z * 1.5⟩, 1, aColor⟩).vColor
      = aColor := hk.2.2.2
  have hr : (bhSpinPull u.uBlackHole u.uTime
      (ambientStage u ⟨⟨position.x, position.y, position.z * 1.5⟩, 1, aColor⟩).pos).2
      = planarRadius position := by
    rw [bhSpinPull_r, hx1, hy1, glLength2_eq_planar, planarRadius]
  have hind := bhSpinPull_xy_indep u.uBlackHole u.uTime
    (ambientStage u ⟨⟨position.x, position.y, position.z * 1.5⟩, 1, aColor⟩).pos
  rw [hx1, hy1] at hind
  constructor
  · intro hJet
    have hJ : jetSignalOf position > 0.7 ∧ (bhSpinPull u.uBlackHole u.uTime
        (ambientStage u ⟨⟨position.x, position.y, position.z * 1.5⟩, 1, aColor⟩).pos).2
        < 120 := ⟨hJet.1, by rw [hr]; exact hJet.2⟩
    obtain ⟨hz, hx, hy, hsz, hcol⟩ := blackHoleStage_jet u position
      (ambientStage u ⟨⟨position.x, position.y, position.z * 1.5⟩, 1, aColor⟩) hH hJ
    rw [hmain]
    refine ⟨hz, ?_, ?_, ?_, ?_⟩
    · rw [hx, hind.1]
    · rw [hy, hind.2]
    · rw [hsz, hs1]
    · rw [hcol, hc1]
  · intro hJet
    have hJ : ¬(jetSignalOf position > 0.7 ∧ (bhSpinPull u.uBlackHole u.uTime
        (ambientStage u ⟨⟨position.x, position.y, position.z * 1.5⟩, 1, aColor⟩).pos).2
        < 120) := by
      intro hcon
      exact hJet ⟨hcon.1, by rw [← hr]; exact hcon.2⟩
    obtain ⟨hp, hsz, hcol⟩ := blackHoleStage_disk u position
      (ambientStage u ⟨⟨position.x, position.y, position.z * 1.5⟩, 1, aColor⟩) hH hJ
    rw [hmain]
    refine ⟨?_, ?_, ?_, ?_⟩
    · rw [hp, hind.1]
    · rw [hp, hind.2]
    · rw [hsz, hs1, hind.1, hind.2]
    · rw [hcol, hc1, hind.1, hind.2]

/-- Witness for C3 at a concrete particle and uniform set. -/
theorem shader_jet_classification_witness :
    JetCharacterization uniformsBH ⟨1, 2, 3⟩ ⟨1, 1, 1⟩ :=
  shader_jet_classification uniformsBH ⟨1, 2, 3⟩ ⟨1, 1, 1⟩ rfl (by norm_num [uniformsBH]) rfl

/-- C9: the per-particle transform is a pure deterministic function of
the base position, the color attribute and the uniforms (time, blend
factors, interaction point and configuration): equal inputs give equal
outputs, with no hidden per-particle state. -/
theorem shader_deterministic (u1 u2 : Uniforms) (p1 p2 c1 c2 : Vec3)
    (hu : u1 = u2) (hp : p1 = p2) (hc : c1 = c2) :
    shaderMain u1 p1 c1 = shaderMain u2 p2 c2 := by
  rw [hu, hp, hc]

/-- Witness for C9: two evaluations at the same concrete input agree. -/
theorem shader_deterministic_witness :
    shaderMain uniformsBH ⟨1, 2, 3⟩ ⟨1, 1, 1⟩ =
      shaderMain uniformsBH ⟨1, 2, 3⟩ ⟨1, 1, 1⟩ :=
  shader_deterministic uniformsBH uniformsBH ⟨1, 2, 3⟩ ⟨1, 2, 3⟩ ⟨1, 1, 1⟩ ⟨1, 1, 1⟩
    rfl rfl rfl
